import Mathlib

/-!
Shallow embedding of the cost-propagation and game-resolution engine of the
`fujin` repository (`src/solver_tools.py`, with the traveler construction of
`src/env_setup.py`), together with proofs settling the frozen claims.

Modelling conventions:
* Python floats are modelled as exact rationals (`ℚ`).  The transcendental
  library functions `math.sqrt`, `math.cos`, `math.sin`, `math.atan2` (and the
  constant `math.pi`) are not rational-valued, so they are parameters of the
  embedding (`MathOps`); general theorems quantify over them, and concrete
  evaluations use an interpretation that is exact at every point at which the
  concrete runs evaluate these functions.
* Python lists and 2-D numpy arrays are modelled as (nested) Lean lists.
  Python indexing wraps a negative index `i` with `-len <= i < 0` to
  `len + i` and raises `IndexError` otherwise when out of range; reading and
  writing through indices is therefore `Option`-valued (`none` models a raised
  exception, which aborts the run).
* Fallible code (exceptions: `IndexError`, `NameError`, `ValueError`,
  `ZeroDivisionError`) is modelled with `Option`: `none` is an uncaught
  exception.
* The source is Python 2 (`xrange`, `print` statements, `map`/`zip` returning
  lists).  In Python 2 the loop variables of list comprehensions leak into the
  enclosing scope; this matters for `getCost2go` (see `f_work` below).
-/

namespace Fujin

/-! ## Python list indexing -/

/-- Python index resolution for a sequence of length `len`: a negative index
`i` with `-len ≤ i` denotes `len + i`; anything else out of `[0, len)` raises
`IndexError` (`none`). -/
def pyIdx (len : ℕ) (i : ℤ) : Option ℕ :=
  if 0 ≤ i then (if i < (len : ℤ) then some i.toNat else none)
  else (if -i ≤ (len : ℤ) then some (len - (-i).toNat) else none)

/-- Python read `xs[i]`. -/
def pyGetL {α : Type} (xs : List α) (i : ℤ) : Option α :=
  (pyIdx xs.length i).bind fun k => xs.get? k

/-- Python read `g[i][j]` on a nested list (2-D numpy array). -/
def pyGet2 {α : Type} (g : List (List α)) (i j : ℤ) : Option α :=
  (pyGetL g i).bind fun row => pyGetL row j

/-- Python write `g[i][j] = v` on a nested list (2-D numpy array). -/
def pySet2 {α : Type} (g : List (List α)) (i j : ℤ) (v : α) : Option (List (List α)) :=
  (pyIdx g.length i).bind fun k =>
    (g.get? k).bind fun row =>
      (pyIdx row.length j).map fun l => g.set k (row.set l v)

/-- `shape[1]` of a 2-D numpy array modelled as a nested list: the length of
the first row (all rows of a numpy array have equal length). -/
def shape1 {α : Type} (g : List (List α)) : ℕ := (g.headD []).length

/-! ## Parameterized mathematical primitives -/

/-- The real-valued library functions used by the solver.  `pi` stands for
`math.pi`; `cos`, `sin`, `sqrt`, `atan2` stand for the corresponding `math`
functions.  They are parameters of the embedding because their exact values
are not rational; every theorem about the code holds for all interpretations
unless it evaluates a concrete run, in which case the interpretation
`opsX` below is used. -/
structure MathOps where
  pi : ℚ
  cos : ℚ → ℚ
  sin : ℚ → ℚ
  sqrt : ℚ → ℚ
  atan2 : ℚ → ℚ → ℚ

/-- Fueled integer square root, structurally recursive on the fuel (unlike
`Nat.sqrt`, whose well-founded recursion the kernel cannot evaluate cheaply).
Uses the recurrence `isqrt n = 2 * isqrt (n / 4)`, adjusted up by one where
needed; with fuel `≥ n` (and `n ≥ 1` handled by the recursion bottoming out at
`n = 0`) it computes the floor of the square root of `n`. -/
def isqrtAux : ℕ → ℕ → ℕ
  | 0, _ => 0
  | fuel + 1, n =>
    if n = 0 then 0
    else
      let r := isqrtAux fuel (n / 4) * 2
      if (r + 1) * (r + 1) ≤ n then r + 1 else r

/-- Integer square root (floor), kernel-evaluable. -/
def isqrt (n : ℕ) : ℕ := isqrtAux n n

/-- Exact square root on `ℚ`: the (unique, nonnegative) exact square root when
the argument is a perfect square of a rational, and `0` otherwise.  Used only
to build the concrete interpretation `opsX`; the concrete runs below apply
`sqrt` only to perfect squares and to `2`. -/
def ratSqrt (x : ℚ) : ℚ :=
  if (isqrt x.num.toNat) ^ 2 = x.num.toNat ∧ 0 ≤ x.num ∧ (isqrt x.den) ^ 2 = x.den
  then (isqrt x.num.toNat : ℚ) / (isqrt x.den : ℚ) else 0

/-- The IEEE-754 double value of `math.sqrt(2)`. -/
def sqrt2F : ℚ := 6369051672525773 / 4503599627370496

/-- Concrete interpretation of the mathematical primitives used by the
concrete runs in this file.  Angles are represented in units of `pi/4`
(so `pi` is the code `4`); `cos` and `sin` return the exact real cosine and
sine at the multiples of `pi/2` used by the 4-way traveler, `sqrt` is exact on
perfect squares and returns the IEEE double value at `2`, and `atan2` is
arbitrary (the direction component of `uv2magdir` is never read by the
solver). -/
def opsX : MathOps where
  pi := 4
  cos := fun t => if t = 0 then 1 else if t = 2 then 0 else if t = 4 then -1
    else if t = 6 then 0 else 0
  sin := fun t => if t = 0 then 0 else if t = 2 then 1 else if t = 4 then 0
    else if t = 6 then -1 else 0
  sqrt := fun x => if x = 2 then sqrt2F else ratSqrt x
  atan2 := fun _ _ => 0

/-! ## Traveler (env_setup.getTraveler) -/

/-- The `traveler` dictionary of `env_setup.getTraveler`. -/
structure Traveler where
  start : ℤ × ℤ
  target : ℤ × ℤ
  actionspace : List String
  action2radians : String → ℚ
  speed_cps : ℚ

/-- `env_setup.getTraveler`: builds the traveler dictionary.  `piV` stands for
`math.pi` (a parameter, see `MathOps`).  An unknown `travelType` leaves the
action space `None` in the source; it is modelled as `[]` (no claim exercises
it). -/
def getTraveler (start target : ℤ × ℤ) (speed_cps : ℚ) (travelType : String)
    (piV : ℚ) : Traveler where
  start := start
  target := target
  actionspace :=
    if travelType = "4way" then ["^", "v", "<", ">"]
    else if travelType = "8way" then ["^", "v", "<", ">", "a", "b", "c", "d"]
    else if travelType = "16way" then
      ["^", "v", "<", ">", "a", "b", "c", "d", "m", "n", "o", "p", "w", "x", "y", "z"]
    else []
  action2radians := fun s =>
    if s = ">" then 0
    else if s = "b" then piV / 4
    else if s = "^" then piV / 2
    else if s = "a" then piV * (3/4)
    else if s = "<" then piV
    else if s = "c" then piV * (5/4)
    else if s = "v" then piV * (3/2)
    else if s = "d" then piV * (7/4)
    else if s = "m" then (piV / 2) + (1/2) * ((piV * (3/4)) - (piV / 2))
    else if s = "n" then (piV / 4) + (1/2) * ((piV / 2) - (piV / 4))
    else if s = "o" then (piV * (3/4)) + (1/2) * (piV - (piV * (3/4)))
    else if s = "p" then 0 + (1/2) * ((piV / 4) - 0)
    else if s = "w" then (piV * (5/4)) + (1/2) * ((piV * (3/2)) - (piV * (5/4)))
    else if s = "x" then (piV * (3/2)) + (1/2) * ((piV * (7/4)) - (piV * (3/2)))
    else if s = "y" then piV + (1/2) * ((piV * (5/4)) - piV)
    else if s = "z" then (piV * (7/4)) + (1/2) * ((piV * 2) - (piV * (7/4)))
    else if s = "*" then 0
    else if s = "-" then 0
    else 0
  speed_cps := speed_cps

/-! ## Grid connectivity (solver_tools.getNeighbors) -/

/-- A guarded singleton: one conditional `B.append(...)` of the source. -/
def seg (cond : Bool) (r c : ℤ) (sym : String) : List (ℤ × ℤ × String) :=
  if cond then [(r, c, sym)] else []

/-- Occupancy lookup `env[r][c]`.  Every call site of `getNeighbors` passes a
cell of the grid, for which all the guarded reads of the source are in range;
an out-of-range read (an `IndexError` in Python) is mapped to the obstacle
flag, which makes the corresponding guard fail. -/
def envGetD (env : List (List ℤ)) (flag : ℤ) (r c : ℤ) : ℤ :=
  (pyGet2 env r c).getD flag

/-- `solver_tools.getNeighbors`: the list of valid neighbor transitions of
cell `i` in an `m × n` occupancy grid `env`, in the fixed source order.  Base
and diagonal moves require in-bounds plus non-obstacle destination; each of
the eight extended knight moves additionally requires three previously
computed flags (e.g. `"m"` requires `up`, `upleft` AND `left`). -/
def getNeighbors (i : ℤ × ℤ) (m n : ℤ) (env : List (List ℤ))
    (obstacleFlag : ℤ := 1) : List (ℤ × ℤ × String) :=
  let free : ℤ → ℤ → Bool := fun r c => envGetD env obstacleFlag r c != obstacleFlag
  let up        := decide (0 ≤ i.1 - 1) && free (i.1-1) i.2
  let down      := decide (i.1 + 1 < m) && free (i.1+1) i.2
  let left      := decide (0 ≤ i.2 - 1) && free i.1 (i.2-1)
  let right     := decide (i.2 + 1 < n) && free i.1 (i.2+1)
  let upleft    := decide (0 ≤ i.1 - 1) && decide (0 ≤ i.2 - 1) && free (i.1-1) (i.2-1)
  let upright   := decide (0 ≤ i.1 - 1) && decide (i.2 + 1 < n) && free (i.1-1) (i.2+1)
  let downleft  := decide (i.1 + 1 < m) && decide (0 ≤ i.2 - 1) && free (i.1+1) (i.2-1)
  let downright := decide (i.1 + 1 < m) && decide (i.2 + 1 < n) && free (i.1+1) (i.2+1)
  seg up (i.1-1) i.2 "^" ++
  seg down (i.1+1) i.2 "v" ++
  seg left i.1 (i.2-1) "<" ++
  seg right i.1 (i.2+1) ">" ++
  seg upleft (i.1-1) (i.2-1) "a" ++
  seg upright (i.1-1) (i.2+1) "b" ++
  seg downleft (i.1+1) (i.2-1) "c" ++
  seg downright (i.1+1) (i.2+1) "d" ++
  seg (decide (0 ≤ i.1-2) && decide (0 ≤ i.2-1) && up && upleft && left
       && free (i.1-2) (i.2-1)) (i.1-2) (i.2-1) "m" ++
  seg (decide (0 ≤ i.1-2) && decide (i.2+1 < n) && up && upright && right
       && free (i.1-2) (i.2+1)) (i.1-2) (i.2+1) "n" ++
  seg (decide (0 ≤ i.1-1) && decide (0 ≤ i.2-2) && up && upleft && left
       && free (i.1-1) (i.2-2)) (i.1-1) (i.2-2) "o" ++
  seg (decide (0 ≤ i.1-1) && decide (i.2+2 < n) && up && upright && right
       && free (i.1-1) (i.2+2)) (i.1-1) (i.2+2) "p" ++
  seg (decide (i.1+2 < m) && decide (0 ≤ i.2-1) && down && downleft && left
       && free (i.1+2) (i.2-1)) (i.1+2) (i.2-1) "w" ++
  seg (decide (i.1+2 < m) && decide (i.2+1 < n) && down && downright && right
       && free (i.1+2) (i.2+1)) (i.1+2) (i.2+1) "x" ++
  seg (decide (i.1+1 < m) && decide (0 ≤ i.2-2) && down && downleft && left
       && free (i.1+1) (i.2-2)) (i.1+1) (i.2-2) "y" ++
  seg (decide (i.1+1 < m) && decide (i.2+2 < n) && down && downright && right
       && free (i.1+1) (i.2+2)) (i.1+1) (i.2+2) "z"

/-! ## Force and adversary model (solver_tools.getWorldActionsForCell) -/

/-- `np.linspace(a, b, 10)`: ten evenly spaced points from `a` to `b`
inclusive. -/
def linspace10 (a b : ℚ) : List ℚ :=
  (List.range 10).map fun i => a + (b - a) * i / 9

/-- `itertools.product` over a list of lists, in Python order (the first
factor varies slowest). -/
def listProd {α : Type} : List (List α) → List (List α)
  | [] => [[]]
  | r :: rs => r.flatMap fun x => (listProd rs).map fun t => x :: t

/-- The `world_actionspace` dictionary. -/
structure WorldActionspace where
  uactions : List (List ℚ)
  vactions : List (List ℚ)
  num : ℕ
  deriving DecidableEq, Repr

/-- `solver_tools.getWorldActionsForCell`.  For each force source `g` it
builds the 10-point u-range and v-range at the given cell; `numActions` is the
product of the u-range lengths.  The returned dictionary binds BOTH
`"uactions"` and `"vactions"` to `uactionspace` (source line 114); the
computed `vactionspace` is discarded. -/
def getWorldActionsForCell (row col : ℤ) (ugrids vgrids : List (List (List ℚ)))
    (errors : List ℚ) : Option WorldActionspace := do
  let numVectors := ugrids.length
  let uranges ← (List.range numVectors).mapM fun g => do
    let ug ← ugrids.get? g
    let e ← errors.get? g
    let center ← pyGet2 ug row col
    pure (linspace10 (center - e) (center + e))
  let vranges ← (List.range numVectors).mapM fun g => do
    let vg ← vgrids.get? g
    let e ← errors.get? g
    let center ← pyGet2 vg row col
    pure (linspace10 (center - e) (center + e))
  let numActions := uranges.foldl (fun acc r => acc * r.length) 1
  let uactionspace := listProd uranges
  let _vactionspace := listProd vranges
  pure { uactions := uactionspace, vactions := uactionspace, num := numActions }

/-! ## Vector algebra helpers -/

/-- `solver_tools.getVectorSum`: the weighted sum of the given u- and
v-components.  Indexing follows `range(len(us))`; shorter `weights` or `vs`
raise `IndexError`. -/
def getVectorSum (us vs weights : List ℚ) : Option (ℚ × ℚ) :=
  (List.range us.length).foldlM
    (fun (acc : ℚ × ℚ) i => do
      let w ← weights.get? i
      let u ← us.get? i
      let v ← vs.get? i
      pure (acc.1 + w * u, acc.2 + w * v))
    ((0 : ℚ), (0 : ℚ))

/-- `solver_tools.getVectorDiff`: NOT a difference of two vectors — it negates
the whole weighted sum (`utotal = utotal - weights[i] * us[i]` for every
`i`). -/
def getVectorDiff (us vs weights : List ℚ) : Option (ℚ × ℚ) :=
  (List.range us.length).foldlM
    (fun (acc : ℚ × ℚ) i => do
      let w ← weights.get? i
      let u ← us.get? i
      let v ← vs.get? i
      pure (acc.1 - w * u, acc.2 - w * v))
    ((0 : ℚ), (0 : ℚ))

/-- `solver_tools.magdir2uv`. -/
def magdir2uv (ops : MathOps) (mag dir : ℚ) : ℚ × ℚ :=
  (mag * ops.cos dir, mag * ops.sin dir)

/-- `solver_tools.uv2magdir`. -/
def uv2magdir (ops : MathOps) (u v : ℚ) : ℚ × ℚ :=
  (ops.sqrt (u * u + v * v), ops.atan2 v u)

/-! ## Outcome function (solver_tools.getOutcome) -/

/-- `solver_tools.getOutcome`: returns `(workc, work)`.  The dynamic
programming branch runs only when `cost2go`, `row` and `col` are all supplied
(non-`None`); it indexes the cost-to-go grid at the fixed per-move offset with
no bounds checking (Python semantics: a negative index wraps, a too-large one
raises).  The `"*"` branch executes `workc = d_max`, and `d_max` is an
undefined name there (the parameter is `D_max`), so that branch raises
`NameError` — modelled as `none`.  An unrecognized move only prints
"Invalid move" and returns `workc = work` unchanged. -/
def getOutcome (ops : MathOps) (move : String) (us vs weights : List ℚ)
    (traveler : Traveler) (Dmax : ℚ) (cost2go : Option (List (List ℚ)) := none)
    (row col : Option ℤ := none) : Option (ℚ × ℚ) := do
  let uvw ← getVectorSum us vs weights
  let uvt := magdir2uv ops traveler.speed_cps (traveler.action2radians move)
  let uva ← getVectorDiff [uvw.1, uvt.1] [uvw.2, uvt.2] [1, 1]
  let md := uv2magdir ops uva.1 uva.2
  let work := md.1
  match cost2go, row, col with
  | some c2g, some r0, some c0 =>
    if move = "^" then (pyGet2 c2g (r0-1) c0).map fun x => (work + x, work)
    else if move = "v" then (pyGet2 c2g (r0+1) c0).map fun x => (work + x, work)
    else if move = "<" then (pyGet2 c2g r0 (c0-1)).map fun x => (work + x, work)
    else if move = ">" then (pyGet2 c2g r0 (c0+1)).map fun x => (work + x, work)
    else if move = "a" then (pyGet2 c2g (r0-1) (c0-1)).map fun x => (work + x, work)
    else if move = "b" then (pyGet2 c2g (r0-1) (c0+1)).map fun x => (work + x, work)
    else if move = "c" then (pyGet2 c2g (r0+1) (c0-1)).map fun x => (work + x, work)
    else if move = "d" then (pyGet2 c2g (r0+1) (c0+1)).map fun x => (work + x, work)
    else if move = "m" then (pyGet2 c2g (r0-2) (c0-1)).map fun x => (work + x, work)
    else if move = "n" then (pyGet2 c2g (r0-2) (c0+1)).map fun x => (work + x, work)
    else if move = "o" then (pyGet2 c2g (r0-1) (c0-2)).map fun x => (work + x, work)
    else if move = "p" then (pyGet2 c2g (r0-1) (c0+2)).map fun x => (work + x, work)
    else if move = "w" then (pyGet2 c2g (r0+2) (c0-1)).map fun x => (work + x, work)
    else if move = "x" then (pyGet2 c2g (r0+2) (c0+1)).map fun x => (work + x, work)
    else if move = "y" then (pyGet2 c2g (r0+1) (c0-2)).map fun x => (work + x, work)
    else if move = "z" then (pyGet2 c2g (r0+1) (c0+2)).map fun x => (work + x, work)
    else if move = "*" then none
    else pure (work, work)
  | _, _, _ => pure (work, work)

/-! ## Payoff matrix builder (solver_tools.getGameForCell) -/

/-- `solver_tools.getGameForCell`: the traveler-move × adversary-action cost
and work matrices for a cell.  A move not in the neighbor list contributes
`(D_max, D_max)` without calling `getOutcome`. -/
def getGameForCell (ops : MathOps) (row col : ℤ) (traveler : Traveler)
    (ugrids vgrids : List (List (List ℚ))) (errors weights : List ℚ)
    (env : List (List ℤ)) (Dmax : ℚ)
    (cost2go : Option (List (List ℚ)) := none) :
    Option (List (List ℚ) × List (List ℚ)) := do
  let wa ← getWorldActionsForCell row col ugrids vgrids errors
  let B := getNeighbors (row, col) (env.length : ℤ) (shape1 env : ℤ) env 1
  let Bmove := B.map fun b => b.2.2
  let rows ← traveler.actionspace.mapM (fun a =>
    let Bvalid := Bmove.contains a
    (List.range wa.num).mapM (fun cIdx =>
      if Bvalid then do
        let uac ← wa.uactions.get? cIdx
        let vac ← wa.vactions.get? cIdx
        getOutcome ops a uac vac weights traveler Dmax cost2go (some row) (some col)
      else (pure (Dmax, Dmax) : Option (ℚ × ℚ))))
  pure (rows.map fun rw => rw.map Prod.fst, rows.map fun rw => rw.map Prod.snd)

/-! ## Zero-sum game solver (solver_tools.solve_williams, solveGame) -/

/-- State of the Williams fictitious-play loop. -/
structure WState where
  rowcnt : List ℕ
  colcnt : List ℕ
  rowCum : List ℚ
  colCum : List ℚ
  active : ℕ

/-- `l[i] += 1` on a Python list of counters. -/
def bump (l : List ℕ) (i : ℕ) : Option (List ℕ) :=
  (l.get? i).map fun x => l.set i (x + 1)

/-- Python-2 `map(add, a, b)`: elementwise sum; unequal lengths pad with
`None` and raise `TypeError` on `add`. -/
def map2add (a b : List ℚ) : Option (List ℚ) :=
  if a.length = b.length then some (a.zipWith (· + ·) b) else none

/-- Python `min` over a list of `(payoff, index)` pairs: lexicographically
smallest, first one on exact ties; `ValueError` (`none`) on an empty list. -/
def lexMinPair (l : List (ℚ × ℤ)) : Option (ℚ × ℤ) :=
  l.foldl
    (fun acc p => match acc with
      | none => some p
      | some q => if p.1 < q.1 ∨ (p.1 = q.1 ∧ p.2 < q.2) then some p else some q)
    none

/-- Python `max` over a list of `(payoff, index)` pairs: lexicographically
largest, first one on exact ties; `ValueError` (`none`) on an empty list. -/
def lexMaxPair (l : List (ℚ × ℤ)) : Option (ℚ × ℤ) :=
  l.foldl
    (fun acc p => match acc with
      | none => some p
      | some q => if q.1 < p.1 ∨ (p.1 = q.1 ∧ q.2 < p.2) then some p else some q)
    none

/-- Python-2 `zip(*rows)`: the transpose, truncated to the shortest row
(empty when there are no rows). -/
def pyZipT (rows : List (List ℚ)) : List (List ℚ) :=
  (List.range ((rows.map List.length).min?.getD 0)).map fun j =>
    rows.filterMap fun r => r.get? j

/-- One iteration of the Williams fictitious-play loop: increment the play
count of the active row, add its payoffs to the column cumulative payoffs,
best-respond with a column (lexicographic `min` over `(payoff, index)`
pairs), increment its count, add its payoffs to the row cumulative payoffs,
and best-respond with a row (lexicographic `max` over `(payoff, -index)`
pairs). -/
def williamsStep (pm transpose : List (List ℚ)) (colpos rowpos : List ℤ)
    (s : WState) (_k : ℕ) : Option WState := do
  let rc ← bump s.rowcnt s.active
  let prow ← pm.get? s.active
  let cc ← map2add prow s.colCum
  let mp ← lexMinPair (cc.zip colpos)
  let activeC := mp.2.toNat
  let kc ← bump s.colcnt activeC
  let trow ← transpose.get? activeC
  let rcum ← map2add trow s.rowCum
  let xp ← lexMaxPair (rcum.zip rowpos)
  pure (⟨rc, kc, rcum, cc, (-xp.2).toNat⟩ : WState)

/-- `solver_tools.solve_williams`: iterative fictitious play on the negated
payoff matrix.  Returns the two play-count vectors normalized by the
iteration count.  `value_of_game` is computed (forcing `max`/`min` of the
cumulative payoffs and a division by `iterations`) but not returned. -/
def solve_williams (payoff0 : List (List ℚ)) (iterations : ℕ := 100) :
    Option (List ℚ × List ℚ) := do
  let pm := payoff0.map fun r => r.map fun x => -x
  let transpose := pyZipT pm
  let numrows := pm.length
  let numcols := transpose.length
  let colpos : List ℤ := (List.range numcols).map fun k => (k : ℤ)
  let rowpos : List ℤ := (List.range numrows).map fun k => -(k : ℤ)
  let final ← (List.range iterations).foldlM
    (williamsStep pm transpose colpos rowpos)
    ⟨List.replicate numrows 0, List.replicate numcols 0,
     List.replicate numrows 0, List.replicate numcols 0, 0⟩
  let mx ← final.rowCum.max?
  let mn ← final.colCum.min?
  if iterations = 0 then none
  else
    let _value_of_game := (mx + mn) / 2 / (iterations : ℚ)
    pure (final.rowcnt.map (fun c0 : ℕ => (c0 : ℚ) / (iterations : ℚ)),
          final.colcnt.map (fun c0 : ℕ => (c0 : ℚ) / (iterations : ℚ)))

/-- `np.argmax`: first index of the maximum; errors on an empty array. -/
def np_argmax (l : List ℚ) : Option ℕ := do
  let mx ← l.max?
  l.findIdx? fun x => x = mx

/-- The solution tuple `(y, z, i, j, v)` of `solveGame`. -/
structure GameSolution where
  y : List ℚ
  z : List ℚ
  i : ℕ
  j : ℕ
  v : ℚ
  deriving DecidableEq, Repr

/-- `solver_tools.solveGame`: dispatches on `method`; the default `0` runs
`solve_williams` (with its default 100 iterations), converts each mixed
strategy to a pure policy by `np.argmax`, and reads the reported value from
the matrix at that pure pair.  Methods `1` and `2` call the external `gambit`
and `nashpy` libraries, which are outside this repository (and a method other
than `0`, `1`, `2` leaves `y`, `z` unbound, a `NameError`); all are modelled
as `none` — every claim concerns the default method. -/
def solveGame (game : List (List ℚ)) (method : ℕ := 0) : Option GameSolution := do
  if method = 0 then
    let yz ← solve_williams game 100
    let i ← np_argmax yz.1
    let j ← np_argmax yz.2
    let v ← (game.get? i).bind fun rw => rw.get? j
    pure ⟨yz.1, yz.2, i, j, v⟩
  else none

/-! ## Cost-to-go propagation engine (solver_tools.getCost2go) -/

/-- The `bounds` dictionary. -/
structure Bounds where
  upperleft : ℤ × ℤ
  lowerright : ℤ × ℤ
  deriving DecidableEq, Repr

/-- The enqueue test of `getCost2go` (source lines 575–576): a neighbor is
eligible exactly when it is STRICTLY inside the bounds rectangle on all four
sides (`upperleft < b` and `b < lowerright`, componentwise). -/
def inBoundsStrict (bounds : Bounds) (b : ℤ × ℤ) : Bool :=
  decide (bounds.upperleft.1 < b.1) && decide (b.1 < bounds.lowerright.1) &&
  decide (bounds.upperleft.2 < b.2) && decide (b.2 < bounds.lowerright.2)

/-- Short-circuit conjunction of fallible tests: a later test is evaluated
(and can raise) only if all earlier ones returned `True`, matching a chained
Python `and`. -/
def andChainM : List (Option Bool) → Option Bool
  | [] => some true
  | c :: cs => do
    let b ← c
    if b then andChainM cs else pure false

/-- The nested helper `f_work` of `getCost2go`.

The source reads `errors = [e[row][col] for e in egrids]` and
`weights = [w[row][col] for w in wgrids]`, but `f_work` has no parameters
`row`, `col` and `getCost2go` assigns none before `f_work` runs — except that
this is Python 2, where the loop variables of the list comprehension
`np.array([["-" for col in range(full_n)] for row in range(full_m)])`
(source line 544) leak into `getCost2go`'s local scope.  `f_work`'s free
`row`, `col` therefore resolve to those leaked values, `row = full_m - 1`,
`col = full_n - 1`, for EVERY evaluated cell `i`.  The leaked values are the
explicit arguments `leakRow`, `leakCol` here; `getCost2go` below passes
`full_m - 1`, `full_n - 1`. -/
def f_work (ops : MathOps) (i : ℤ × ℤ) (m n : ℕ) (cost2go : List (List ℚ))
    (Dmax : ℚ) (env : List (List ℤ)) (traveler : Traveler)
    (ugrids vgrids egrids wgrids : List (List (List ℚ))) (method : ℕ)
    (leakRow leakCol : ℤ) : Option (ℚ × String) := do
  let errors ← egrids.mapM fun e => pyGet2 e leakRow leakCol
  let weights ← wgrids.mapM fun w => pyGet2 w leakRow leakCol
  let gg ← getGameForCell ops i.1 i.2 traveler ugrids vgrids errors weights env Dmax
    (some cost2go)
  let sol ← solveGame gg.1 method
  let act ← traveler.actionspace.get? sol.i
  pure (sol.v, act)

/-- The nested helper `getNewCost` of `getCost2go`: classify cell `i` and
return its new `(cost, action)`.

* the target gets `(0, "*")` unconditionally;
* an obstacle keeps the initial `action = " "` (only `cost` is assigned);
* the "surrounded by D_max" test reads, in source order and with Python
  `and` short-circuiting, the SEVEN distinct neighbors
  up, up-left, up (again), up-right, left, down-left, right, down-right —
  the up neighbor is tested twice and the down neighbor `(i0+1, i1)` is
  never tested (source lines 522–525);
* otherwise the cell's game is built and solved by `f_work`, and a value
  `≥ D_max` is recorded as unreachable. -/
def getNewCost (ops : MathOps) (i G : ℤ × ℤ) (occgrid : List (List ℤ)) (m n : ℕ)
    (cost2go : List (List ℚ)) (Dmax : ℚ) (traveler : Traveler)
    (ugrids vgrids egrids wgrids : List (List (List ℚ)))
    (leakRow leakCol : ℤ) : Option (ℚ × String) :=
  if i = G then some (0, "*")
  else do
    let occ ← pyGet2 occgrid i.1 i.2
    if occ = 1 then pure (Dmax, " ")
    else do
      let surrounded ← andChainM
        [(pyGet2 cost2go (i.1-1) i.2).map fun x => decide (x = Dmax),
         (pyGet2 cost2go (i.1-1) (i.2-1)).map fun x => decide (x = Dmax),
         (pyGet2 cost2go (i.1-1) i.2).map fun x => decide (x = Dmax),
         (pyGet2 cost2go (i.1-1) (i.2+1)).map fun x => decide (x = Dmax),
         (pyGet2 cost2go i.1 (i.2-1)).map fun x => decide (x = Dmax),
         (pyGet2 cost2go (i.1+1) (i.2-1)).map fun x => decide (x = Dmax),
         (pyGet2 cost2go i.1 (i.2+1)).map fun x => decide (x = Dmax),
         (pyGet2 cost2go (i.1+1) (i.2+1)).map fun x => decide (x = Dmax)]
      if surrounded then pure (Dmax, "-")
      else do
        let cb ← f_work ops i occgrid.length (shape1 occgrid) cost2go Dmax occgrid
          traveler ugrids vgrids egrids wgrids 0 leakRow leakCol
        if cb.1 ≥ Dmax then pure (Dmax, "-") else pure (cb.1, cb.2)

/-- The data the sweep loop of `getCost2go` closes over. -/
structure SweepCtx where
  ops : MathOps
  traveler : Traveler
  occgrid : List (List ℤ)
  ugrids : List (List (List ℚ))
  vgrids : List (List (List ℚ))
  egrids : List (List (List ℚ))
  wgrids : List (List (List ℚ))
  bounds : Bounds
  G : ℤ × ℤ
  Dmax : ℚ
  mB : ℕ
  nB : ℕ
  leakRow : ℤ
  leakCol : ℤ

/-- The mutable state of one `while visitQueue` sweep. -/
structure SweepSt where
  cost2go : List (List ℚ)
  action2go : List (List String)
  visitQueue : List (ℤ × ℤ)
  visitHistory : List (ℤ × ℤ)

/-- One step of the neighbor-enqueueing loop: a neighbor strictly inside the
bounds and not yet visited this sweep is appended to the queue and to the
visit history. -/
def enqueueStep (bounds : Bounds) (qh : List (ℤ × ℤ) × List (ℤ × ℤ))
    (b : ℤ × ℤ × String) : List (ℤ × ℤ) × List (ℤ × ℤ) :=
  let bb := (b.1, b.2.1)
  if inBoundsStrict bounds bb then
    if bb ∈ qh.2 then qh else (qh.1 ++ [bb], qh.2 ++ [bb])
  else qh

/-- The neighbor-enqueueing loop at the bottom of the sweep body. -/
def enqueueNeighbors (bounds : Bounds) (B : List (ℤ × ℤ × String))
    (queue hist : List (ℤ × ℤ)) : List (ℤ × ℤ) × List (ℤ × ℤ) :=
  B.foldl (enqueueStep bounds) (queue, hist)

/-- The `while visitQueue:` loop of `getCost2go`, with explicit fuel.  Each
iteration pops the front cell, writes its new cost and action into the grids,
and enqueues its unvisited in-bounds neighbors.  The loop always terminates
(every enqueue adds a cell never seen this sweep, so the number of iterations
is bounded by the number of grid cells plus one); `getCost2go` passes fuel
exceeding that bound, and exhausted fuel with a non-empty queue is `none`. -/
def sweepLoop (ctx : SweepCtx) : ℕ → SweepSt →
    Option (List (List ℚ) × List (List String))
  | 0, st =>
    match st.visitQueue with
    | [] => some (st.cost2go, st.action2go)
    | _ :: _ => none
  | fuel + 1, st =>
    match st.visitQueue with
    | [] => some (st.cost2go, st.action2go)
    | i :: rest => do
      let ca ← getNewCost ctx.ops i ctx.G ctx.occgrid ctx.mB ctx.nB st.cost2go
        ctx.Dmax ctx.traveler ctx.ugrids ctx.vgrids ctx.egrids ctx.wgrids
        ctx.leakRow ctx.leakCol
      let c2g ← pySet2 st.cost2go i.1 i.2 ca.1
      let a2g ← pySet2 st.action2go i.1 i.2 ca.2
      let B := getNeighbors i (ctx.occgrid.length : ℤ) (shape1 ctx.occgrid : ℤ)
        ctx.occgrid 1
      let qh := enqueueNeighbors ctx.bounds B rest st.visitHistory
      sweepLoop ctx fuel ⟨c2g, a2g, qh.1, qh.2⟩

/-- The result tuple of `getCost2go`. -/
structure Cost2goResult where
  cost2go : List (List ℚ)
  work2go : List (List ℚ)
  action2go : List (List String)
  history : Option Unit
  deriving DecidableEq, Repr

/-- The `D_max` sentinel of `getCost2go`:
`M * d_max * 100000000000 * 10000000000` with `M = m * n` the bounded cell
count and `d_max = sqrt(2) * 10`. -/
def DmaxVal (ops : MathOps) (bounds : Bounds) : ℚ :=
  (((bounds.lowerright.1 - bounds.upperleft.1).natAbs *
    (bounds.lowerright.2 - bounds.upperleft.2).natAbs : ℕ) : ℚ) *
    (ops.sqrt 2 * 10) * 100000000000 * 10000000000

/-- The effective sweep count of `getCost2go`: the `iterations` argument, or
the bounded cell count `M = m * n` when `None`. -/
def effIterations (bounds : Bounds) (iterations : Option ℕ) : ℕ :=
  iterations.getD
    ((bounds.lowerright.1 - bounds.upperleft.1).natAbs *
     (bounds.lowerright.2 - bounds.upperleft.2).natAbs)

/-- `solver_tools.getCost2go`: initializes the cost grid to `D_max`, the work
grid to zeros and the action grid to `"-"`, then runs `iterations` worklist
sweeps seeded at the target.  `d_max = sqrt(2) * 10` and
`D_max = M * d_max * 100000000000 * 10000000000`.  The work grid is returned
untouched and `history` is returned as `None`.  The Python-2 comprehension
leak makes `f_work` read errors and weights at `(full_m - 1, full_n - 1)`
(see `f_work`). -/
def getCost2go (ops : MathOps) (traveler : Traveler) (occgrid : List (List ℤ))
    (ugrids vgrids egrids wgrids : List (List (List ℚ))) (bounds : Bounds)
    (iterations : Option ℕ := none) (_method : ℕ := 0) : Option Cost2goResult := do
  let G := (traveler.target.1, traveler.target.2)
  let full_m := occgrid.length
  let full_n := shape1 occgrid
  let m := (bounds.lowerright.1 - bounds.upperleft.1).natAbs
  let n := (bounds.lowerright.2 - bounds.upperleft.2).natAbs
  let Dmax : ℚ := DmaxVal ops bounds
  let iters := effIterations bounds iterations
  let cost2goInit : List (List ℚ) := List.replicate full_m (List.replicate full_n Dmax)
  let work2go : List (List ℚ) := List.replicate full_m (List.replicate full_n 0)
  let action2goInit : List (List String) := List.replicate full_m (List.replicate full_n "-")
  let ctx : SweepCtx :=
    ⟨ops, traveler, occgrid, ugrids, vgrids, egrids, wgrids, bounds, G, Dmax,
     m, n, (full_m : ℤ) - 1, (full_n : ℤ) - 1⟩
  let final ← (List.range iters).foldlM
    (fun (grids : List (List ℚ) × List (List String)) _ =>
      sweepLoop ctx (full_m * full_n + 2) ⟨grids.1, grids.2, [G], []⟩)
    (cost2goInit, action2goInit)
  pure ⟨final.1, work2go, final.2, none⟩

/-! ## Spec-modelled reference definitions

These definitions follow the SPEC's words (not the source); they exist only to
be compared with the source-derived definitions above. -/

/-- Modelled from the spec (§4.3, claim C3): the work is the Euclidean
magnitude of the difference between the traveler's desired vector and the
weighted resultant environmental vector. -/
def specWork (ops : MathOps) (move : String) (us vs weights : List ℚ)
    (traveler : Traveler) : Option ℚ :=
  (getVectorSum us vs weights).map fun uvw =>
    let uvt := magdir2uv ops traveler.speed_cps (traveler.action2radians move)
    ops.sqrt ((uvt.1 - uvw.1) * (uvt.1 - uvw.1) + (uvt.2 - uvw.2) * (uvt.2 - uvw.2))

/-- Modelled from the spec (§3 Bounds, claim C9): the half-open bounds
rectangle — cells on the upper-left edge are inside, cells on the lower-right
edge are outside. -/
def specHalfOpenBounds (bounds : Bounds) (b : ℤ × ℤ) : Bool :=
  decide (bounds.upperleft.1 ≤ b.1) && decide (b.1 < bounds.lowerright.1) &&
  decide (bounds.upperleft.2 ≤ b.2) && decide (b.2 < bounds.lowerright.2)

/-! ## Concrete run data

A complete, exactly-representable run of `getCost2go`: a 3 × 3 grid with
obstacles at (1,0), (1,2) and (2,1); one force source with u ≡ 4, v ≡ 0,
error ≡ 0 and weight 0 everywhere except 5 at the bottom-right cell (2,2);
a 4-way traveler of speed 1 with target (0,1); bounds (0,0)–(2,2); one sweep.
The only cell whose game is built is (1,1), whose single valid 4-way move is
"^"; under the (buggy) pipeline the applied vector there is (-20, -21), of
exact magnitude 29. -/

def occ3 : List (List ℤ) := [[0, 0, 0], [1, 0, 1], [0, 1, 0]]

/-- A fully free 3 × 3 occupancy grid. -/
def occFree3 : List (List ℤ) := [[0, 0, 0], [0, 0, 0], [0, 0, 0]]

def uFour : List (List ℚ) := [[4, 4, 4], [4, 4, 4], [4, 4, 4]]

def zero3 : List (List ℚ) := [[0, 0, 0], [0, 0, 0], [0, 0, 0]]

/-- Weight grid: 0 everywhere except 5 at the bottom-right cell (2,2) — the
cell the Python-2 comprehension leak makes `f_work` read. -/
def wLeak : List (List ℚ) := [[0, 0, 0], [0, 0, 0], [0, 0, 5]]

/-- 4-way traveler, speed 1, target (0,1) (angle codes in units of pi/4, see
`opsX`). -/
def trav4 : Traveler := getTraveler (0, 0) (0, 1) 1 "4way" opsX.pi

def bounds3 : Bounds := ⟨(0, 0), (2, 2)⟩

/-- The `D_max` of this run: `M * (sqrt(2) * 10) * 1e11 * 1e10` with
`M = 2 * 2 = 4` and the IEEE value of `sqrt(2)`. -/
def DmaxC : ℚ := 4 * (sqrt2F * 10) * 100000000000 * 10000000000

/-- The cost-to-go grid as it stands when the sweep evaluates cell (1,1):
everything still `D_max` except the target (0,1), already set to 0. -/
def c2gEval : List (List ℚ) :=
  [[DmaxC, 0, DmaxC], [DmaxC, DmaxC, DmaxC], [DmaxC, DmaxC, DmaxC]]

/-- The concrete run. -/
def runC : Option Cost2goResult :=
  getCost2go opsX trav4 occ3 [uFour] [zero3] [zero3] [wLeak] bounds3 (some 1) 0

/-- A cost-to-go grid in which the ONLY neighbor of cell (1,1) holding a
finite (non-`D_max`) cost is the cell directly below it, (2,1); here
`D_max = 9`. -/
def c2Grid : List (List ℚ) := [[9, 9, 9], [9, 9, 9], [9, 0, 9]]

/-- The occupancy grid of the C8 counterexample: free except one obstacle at
(2,0), the LEFT neighbor of the cell (2,1). -/
def envC8 : List (List ℤ) := [[0, 0, 0], [0, 0, 0], [1, 0, 0]]

/-- The value of `runC`: the target (0,1) gets cost 0 and action "*"; the one
game-solved cell (1,1) gets cost 29 and action "^"; every other cell keeps the
initialized `D_max` cost and "-" action; the work grid stays zero; `history`
is `None`. -/
def runOut : Cost2goResult :=
  ⟨[[DmaxC, 0, DmaxC], [DmaxC, 29, DmaxC], [DmaxC, DmaxC, DmaxC]],
   [[0, 0, 0], [0, 0, 0], [0, 0, 0]],
   [["-", "*", "-"], ["-", "^", "-"], ["-", "-", "-"]], none⟩

/-- The payoff matrix of the C10 witness. -/
def gameW : List (List ℚ) := [[1, 3], [2, 0]]

/-- The solution `solveGame` computes for `gameW` (checked by kernel
evaluation in the witness). -/
def solW : GameSolution := ⟨[49/100, 51/100], [3/4, 1/4], 1, 0, 2⟩

/-! ## Claim C1 -/

/-- C1: refuted (code bug).  For the cell (0,0) with one source whose
u-component is 2 and v-component is 5 (error 0), `getWorldActionsForCell`
returns a world action space whose `vactions` list is ten copies of the
u-tuple `[2]` — the `uactionspace` again — while the Cartesian product of the
10-point v-sample ranges is ten copies of `[5]`.  The `"vactions"` entry of
the returned dictionary is bound to `uactionspace` (source line 114); the
computed `vactionspace` is discarded, so the claimed aligned u/v product
structure does not hold. -/
theorem c1_world_actions_vactions_bug :
    getWorldActionsForCell 0 0 [[[2]]] [[[5]]] [0] =
      some ⟨List.replicate 10 [2], List.replicate 10 [2], 10⟩ ∧
    listProd [linspace10 (5 - 0) (5 + 0)] = List.replicate 10 [(5 : ℚ)] ∧
    List.replicate 10 [(2 : ℚ)] ≠ List.replicate 10 [(5 : ℚ)] := by decide!

/-! ## Claim C2 -/

/-- C2: refuted (code bug).  Cell (1,1) of a free grid is neither the target
(0,0) nor an obstacle, and its down neighbor (2,1) holds the finite cost 0,
yet `getNewCost` prunes it: it returns `(D_max, "-")` without building or
solving a payoff matrix (the force/weight grid arguments are empty lists, so
reaching `f_work` would have raised `IndexError` rather than produce this
value).  The surrounded-by-`D_max` test (source lines 522–525) checks
`cost2go[i0-1][i1]` twice and never checks `cost2go[i0+1][i1]`, so only 7 of
the 8 neighbors gate the pruning. -/
theorem c2_prune_ignores_down_neighbor :
    getNewCost opsX (1, 1) (0, 0) occFree3 2 2 c2Grid 9 trav4 [] [] [] [] 2 2 =
      some (9, "-") ∧
    pyGet2 c2Grid 2 1 = some 0 ∧ ((0 : ℚ) = 9 → False) := by decide!

/-! ## Claim C3 -/

/-- C3: counterexample.  One source with u = 1, v = 0, weight 1; traveler of
speed 1 moving ">" (heading angle 0, desired vector (1,0)); the weighted
resultant is also (1,0).  The claim says the work is the magnitude of the
difference of the two vectors, `|(1,0) - (1,0)| = 0` (the spec-modelled
`specWork`), but `getOutcome` returns work 2 = `|(1,0) + (1,0)|`:
`getVectorDiff` negates the weighted SUM of its inputs instead of subtracting
one from the other. -/
theorem c3_work_not_difference_counterexample :
    (getOutcome opsX ">" [1] [0] [1] trav4 999 none none none).map Prod.snd =
      some 2 ∧
    specWork opsX ">" [1] [0] [1] trav4 = some 0 ∧
    ((2 : ℚ) = 0 → False) := by decide!

/-- `getVectorDiff` on the two-element lists built by `getOutcome`, by
unfolding the two loop iterations. -/
theorem getVectorDiff_pair (a b c d : ℚ) :
    getVectorDiff [a, b] [c, d] [1, 1] = some (0 - 1 * a - 1 * b, 0 - 1 * c - 1 * d) :=
  rfl

/-- C3: amended.  The work returned by `getOutcome` is the magnitude of the
NEGATED SUM of the weighted resultant environmental vector and the traveler's
desired vector — equivalently, the Euclidean magnitude of their sum — not of
their difference: `work = sqrt((uw + ut)² + (vw + vt)²)` where `(uw, vw)` is
the weighted resultant and `(ut, vt)` the desired vector. -/
theorem c3_work_is_magnitude_of_sum (ops : MathOps) (move : String)
    (us vs weights : List ℚ) (traveler : Traveler) (Dmax uw vw : ℚ)
    (h : getVectorSum us vs weights = some (uw, vw)) :
    getOutcome ops move us vs weights traveler Dmax none none none =
      some
        (ops.sqrt
          ((uw + traveler.speed_cps * ops.cos (traveler.action2radians move)) ^ 2 +
           (vw + traveler.speed_cps * ops.sin (traveler.action2radians move)) ^ 2),
         ops.sqrt
          ((uw + traveler.speed_cps * ops.cos (traveler.action2radians move)) ^ 2 +
           (vw + traveler.speed_cps * ops.sin (traveler.action2radians move)) ^ 2)) := by
  simp only [getOutcome, h, Option.bind_eq_bind, Option.some_bind, magdir2uv,
    getVectorDiff_pair, uv2magdir]
  ring_nf
  rfl

/-- Witness for `c3_work_is_magnitude_of_sum` at the counterexample input:
the work is `sqrt((1+1)² + 0²)`, and `opsX.sqrt 4 = 2`. -/
theorem c3_work_is_magnitude_of_sum_witness :
    getOutcome opsX ">" [1] [0] [1] trav4 999 none none none =
      some
        (opsX.sqrt
          ((1 + trav4.speed_cps * opsX.cos (trav4.action2radians ">")) ^ 2 +
           (0 + trav4.speed_cps * opsX.sin (trav4.action2radians ">")) ^ 2),
         opsX.sqrt
          ((1 + trav4.speed_cps * opsX.cos (trav4.action2radians ">")) ^ 2 +
           (0 + trav4.speed_cps * opsX.sin (trav4.action2radians ">")) ^ 2)) :=
  c3_work_is_magnitude_of_sum opsX ">" [1] [0] [1] trav4 999 1 0 (by decide!)

/-! ## Claim C8 -/

/-- Membership in one guarded append of `getNeighbors`. -/
theorem mem_seg {t : ℤ × ℤ × String} {cond : Bool} {r c : ℤ} {sym : String} :
    t ∈ seg cond r c sym ↔ cond = true ∧ t = (r, c, sym) := by
  cases cond <;> simp [seg]

/-- C8: counterexample.  From cell (2,1) of `envC8`, the up-up-left knight
move "m" has its destination (0,0), its up cell (1,1) and its up-left cell
(1,0) all in-bounds and obstacle-free — the exact condition the claim states —
yet `getNeighbors` does not return it: the source additionally requires the
LEFT move to be valid, and (2,0) is an obstacle.  So a cell other than the
destination and the two claimed intermediates does affect the decision. -/
theorem c8_knight_move_counterexample :
    envGetD envC8 1 0 0 ≠ 1 ∧ envGetD envC8 1 1 1 ≠ 1 ∧ envGetD envC8 1 1 0 ≠ 1 ∧
    ((0 : ℤ), (0 : ℤ), "m") ∉ getNeighbors (2, 1) 3 3 envC8 1 := by decide

/-- C8: amended.  The knight move "m" from cell `i` is returned exactly when
its destination `(i.1-2, i.2-1)` is in-bounds (on the low side; the high side
follows from `i` being a grid cell) and obstacle-free AND the up, up-left AND
left moves are all individually valid — three prerequisite flags, not the two
intermediate moves of the claim.  (The other seven knight moves follow the
same three-flag pattern in the source.) -/
theorem c8_knight_move_m_iff (i : ℤ × ℤ) (m n : ℤ) (env : List (List ℤ)) :
    (i.1 - 2, i.2 - 1, "m") ∈ getNeighbors i m n env 1 ↔
      (0 ≤ i.1 - 2 ∧ 0 ≤ i.2 - 1 ∧
       (0 ≤ i.1 - 1 ∧ envGetD env 1 (i.1-1) i.2 ≠ 1) ∧
       (0 ≤ i.1 - 1 ∧ 0 ≤ i.2 - 1 ∧ envGetD env 1 (i.1-1) (i.2-1) ≠ 1) ∧
       (0 ≤ i.2 - 1 ∧ envGetD env 1 i.1 (i.2-1) ≠ 1) ∧
       envGetD env 1 (i.1-2) (i.2-1) ≠ 1) := by
  simp +decide only [getNeighbors, List.mem_append, mem_seg, Bool.and_eq_true,
    decide_eq_true_eq, bne_iff_ne, ne_eq, Prod.mk.injEq, and_true, and_false,
    or_false, false_or, false_and, and_self]
  tauto

/-!  The result of the concrete run, as an explicit literal, established once
by kernel evaluation and reused by the claims below. -/

/-- The concrete run `runC` completes and returns `runOut`. -/
theorem runC_eq : runC = some runOut := by decide!

/-- `f_work` on the cell (1,1) of the concrete run, evaluated with the
PER-CELL error and weight the claim C4 asserts (leak coordinates = the
evaluated cell itself, so `errors = [egrid[1][1]] = [0]` and
`weights = [wgrid[1][1]] = [0]`): the cost is 1. -/
theorem fwork_percell_eq :
    f_work opsX (1, 1) 3 3 c2gEval DmaxC occ3 trav4 [uFour] [zero3] [zero3] [wLeak]
      0 1 1 = some (1, "^") := by decide!

/-! ## Claim C4 -/

/-- C4: refuted (code bug).  In the concrete run `runC` the cell (1,1) is
evaluated with the error and weight read at the grid's bottom-right cell
(2,2) — the Python-2 comprehension leak (see `f_work`) — so with weight grid
`wLeak` (0 at (1,1), 5 at (2,2)) the recorded cost is 29.  Evaluating `f_work`
with the per-cell values the claim asserts (reading the error and weight
stored at the evaluated cell itself) gives cost 1 instead
(`fwork_percell_eq`): the spatially variable weight does NOT take effect at
the cell being evaluated. -/
theorem c4_leaked_cell_error_weight_bug :
    (runC.map fun out => pyGet2 out.cost2go 1 1) = some (some 29) ∧
    f_work opsX (1, 1) 3 3 c2gEval DmaxC occ3 trav4 [uFour] [zero3] [zero3] [wLeak]
      0 1 1 = some (1, "^") ∧
    ((29 : ℚ) = 1 → False) := by
  refine ⟨?_, fwork_percell_eq, by norm_num⟩
  rw [runC_eq]
  decide!

/-! ## Claim C5 -/

/-- C5: counterexample.  In the concrete run `runC`, cell (1,1) is evaluated
and its chosen equilibrium action is "^"; the error there is 0, so the single
distinct adversary realization is the u-tuple `[4]` (used for both components
by the C1 bug), and the immediate effort of the chosen action — the work
value `getOutcome` returns for it, i.e. the work-matrix entry at the
equilibrium pair, the value the claim says is stored — is 29.  But the
returned work-to-go grid holds 0 at that cell. -/
theorem c5_work2go_not_immediate_effort_counterexample :
    (runC.map fun out => pyGet2 out.work2go 1 1) = some (some 0) ∧
    (runC.map fun out => pyGet2 out.action2go 1 1) = some (some "^") ∧
    (getOutcome opsX "^" [4] [4] [5] trav4 DmaxC (some c2gEval) (some 1)
      (some 1)).map Prod.snd = some 29 ∧
    ((0 : ℚ) = 29 → False) := by
  refine ⟨?_, ?_, by decide!, by norm_num⟩ <;> (rw [runC_eq]; decide!)

/-- C5: amended.  The work-to-go grid returned by `getCost2go` is identically
zero for every completed run: it is created as `np.zeros` and never written
(the assignment of the work-matrix entry is commented out in `f_work`), so it
does not hold the immediate effort of the chosen actions. -/
theorem c5_work2go_always_zero (ops : MathOps) (traveler : Traveler)
    (occgrid : List (List ℤ)) (ugrids vgrids egrids wgrids : List (List (List ℚ)))
    (bounds : Bounds) (iterations : Option ℕ) (method : ℕ) (out : Cost2goResult)
    (h : getCost2go ops traveler occgrid ugrids vgrids egrids wgrids bounds
      iterations method = some out) :
    out.work2go =
      List.replicate occgrid.length (List.replicate (shape1 occgrid) (0 : ℚ)) := by
  simp only [getCost2go, Option.bind_eq_bind, Option.bind_eq_some] at h
  obtain ⟨final, -, hout⟩ := h
  cases hout
  rfl

/-- Witness for `c5_work2go_always_zero`: the concrete run `runC` completes
and its work-to-go grid is the 3 × 3 zero grid. -/
theorem c5_work2go_always_zero_witness :
    runC.map Cost2goResult.work2go =
      some (List.replicate 3 (List.replicate 3 (0 : ℚ))) := by
  have h := c5_work2go_always_zero opsX trav4 occ3 [uFour] [zero3] [zero3] [wLeak]
    bounds3 (some 1) 0 runOut runC_eq
  rw [runC_eq]
  show some runOut.work2go = _
  rw [h]
  rfl

/-! ## Claim C7 -/

/-- C7: refuted (code bug).  Whenever `getOutcome` is called with the
target/no-move symbol `"*"` and a supplied cost-to-go grid (with row and
col), it does NOT complete normally: the branch executes `workc = d_max`, and
`d_max` is an undefined name inside `getOutcome` (the parameter is spelled
`D_max`), so the call raises `NameError` (modelled as `none`) instead of
returning `D_max`. -/
theorem c7_star_move_raises_name_error (ops : MathOps) (us vs weights : List ℚ)
    (traveler : Traveler) (Dmax : ℚ) (c2g : List (List ℚ)) (r0 c0 : ℤ) :
    getOutcome ops "*" us vs weights traveler Dmax (some c2g) (some r0) (some c0) =
      none := by
  cases h : getVectorSum us vs weights with
  | none => simp [getOutcome, h]
  | some uvw => simp [getOutcome, h, getVectorDiff_pair]

/-! ## Claim C10 -/

/-- `bump` adds exactly 1 to the sum of a counter list and preserves its
length. -/
theorem bump_spec {l l2 : List ℕ} {i : ℕ} (h : bump l i = some l2) :
    l2.sum = l.sum + 1 ∧ l2.length = l.length := by
  induction l generalizing i l2 with
  | nil => simp [bump] at h
  | cons a t ih =>
    cases i with
    | zero =>
      simp only [bump, List.get?_cons_zero, Option.map_some', Option.some.injEq] at h
      subst h
      simp [List.set]
      omega
    | succ k =>
      simp only [bump, List.get?_cons_succ, Option.map_eq_some'] at h
      obtain ⟨x, hx, hl2⟩ := h
      subst hl2
      have ih2 := @ih (t.set k (x + 1)) k (by simp only [bump, hx, Option.map_some'])
      simp only [List.set_cons_succ, List.sum_cons, List.length_cons]
      omega

/-- One Williams iteration adds exactly 1 to each play-count sum. -/
theorem williamsStep_counts {pm transpose : List (List ℚ)} {colpos rowpos : List ℤ}
    {s s2 : WState} {k : ℕ}
    (h : williamsStep pm transpose colpos rowpos s k = some s2) :
    s2.rowcnt.sum = s.rowcnt.sum + 1 ∧ s2.colcnt.sum = s.colcnt.sum + 1 := by
  simp only [williamsStep, Option.bind_eq_bind, Option.bind_eq_some, Option.pure_def,
    Option.some.injEq] at h
  obtain ⟨rc, hrc, prow, _hprow, cc, _hcc, mp, _hmp, kc, hkc, trow, _htrow, rcum,
    _hrcum, xp, _hxp, hfin⟩ := h
  cases hfin
  exact ⟨(bump_spec hrc).1, (bump_spec hkc).1⟩

/-- Across any number of Williams iterations, each play-count sum grows by
exactly the number of iterations performed. -/
theorem williams_foldlM_counts {pm transpose : List (List ℚ)}
    {colpos rowpos : List ℤ} :
    ∀ (l : List ℕ) (s fin : WState),
      l.foldlM (williamsStep pm transpose colpos rowpos) s = some fin →
      fin.rowcnt.sum = s.rowcnt.sum + l.length ∧
      fin.colcnt.sum = s.colcnt.sum + l.length := by
  intro l
  induction l with
  | nil =>
    intro s fin h
    simp only [List.foldlM_nil, Option.pure_def, Option.some.injEq] at h
    subst h
    simp
  | cons k t ih =>
    intro s fin h
    rw [List.foldlM_cons] at h
    obtain ⟨s2, h1, h2⟩ := Option.bind_eq_some.mp h
    have hc := williamsStep_counts h1
    have hi := ih s2 fin h2
    refine ⟨?_, ?_⟩ <;> simp only [List.length_cons] <;> omega

/-- Sum of a counter list mapped through division by `d`. -/
theorem sum_map_natCast_div (l : List ℕ) (d : ℚ) :
    (l.map (fun c : ℕ => (c : ℚ) / d)).sum = (l.sum : ℚ) / d := by
  induction l with
  | nil => simp
  | cons a t ih =>
    rw [List.map_cons, List.sum_cons, ih, List.sum_cons]
    push_cast
    ring

/-- C10: confirmed.  Whenever `solveGame` with the default Williams method
returns normally, the reported value `v` is an entry of the payoff matrix
(`v = game[argmax y][argmax z]`), hence lies between the matrix's minimum and
maximum entries; and each returned mixed strategy is a play-count vector
divided by the 100 fictitious-play iterations, hence nonnegative with sum
exactly 1 (exact rational arithmetic stands in for "within floating
tolerance"). -/
theorem c10_solveGame_value_and_strategies (game : List (List ℚ))
    (sol : GameSolution) (h : solveGame game 0 = some sol) :
    sol.v ∈ game.flatten ∧
    (∀ mn, game.flatten.min? = some mn → mn ≤ sol.v) ∧
    (∀ mx, game.flatten.max? = some mx → sol.v ≤ mx) ∧
    (∀ p ∈ sol.y, 0 ≤ p) ∧ sol.y.sum = 1 ∧
    (∀ p ∈ sol.z, 0 ≤ p) ∧ sol.z.sum = 1 := by
  simp only [solveGame, if_pos, Option.bind_eq_bind, Option.bind_eq_some,
    Option.pure_def, Option.some.injEq] at h
  obtain ⟨yz, hsw, i, hi, j, hj, v, hv, hsol⟩ := h
  simp only [solve_williams, Option.bind_eq_bind, Option.bind_eq_some,
    Option.pure_def, Option.some.injEq] at hsw
  obtain ⟨fin, hfold, mx, _hmx, mn, _hmn, hyz⟩ := hsw
  rw [if_neg (by norm_num)] at hyz
  simp only [Option.pure_def, Option.some.injEq] at hyz
  have hcounts := williams_foldlM_counts (List.range 100) _ fin hfold
  simp only [List.sum_replicate, List.length_range, smul_zero, Nat.zero_add] at hcounts
  -- the reported value is the matrix entry at the pure policy pair
  obtain ⟨row, hrow, hvj⟩ := hv
  have hrowmem : row ∈ game := List.get?_mem hrow
  have hvrow : v ∈ row := List.get?_mem hvj
  have hvmem : v ∈ game.flatten := List.mem_flatten.mpr ⟨row, hrowmem, hvrow⟩
  subst hsol
  subst hyz
  refine ⟨hvmem, ?_, ?_, ?_, ?_, ?_, ?_⟩
  · intro mn2 hmn2
    haveI : Std.Antisymm ((· : ℚ) ≤ ·) := ⟨fun h1 h2 => le_antisymm h1 h2⟩
    exact ((List.min?_eq_some_iff (fun a => le_refl a) (fun a b => min_choice a b)
      (fun _ _ _ => le_min_iff)).mp hmn2).2 _ hvmem
  · intro mx2 hmx2
    haveI : Std.Antisymm ((· : ℚ) ≤ ·) := ⟨fun h1 h2 => le_antisymm h1 h2⟩
    exact ((List.max?_eq_some_iff (fun a => le_refl a) (fun a b => max_choice a b)
      (fun _ _ _ => max_le_iff)).mp hmx2).2 _ hvmem
  · intro p hp
    obtain ⟨c, -, hc⟩ := List.mem_map.mp hp
    subst hc
    positivity
  · rw [sum_map_natCast_div, hcounts.1]
    norm_num
  · intro p hp
    obtain ⟨c, -, hc⟩ := List.mem_map.mp hp
    subst hc
    positivity
  · rw [sum_map_natCast_div, hcounts.2]
    norm_num

/-- Witness for `c10_solveGame_value_and_strategies` on the concrete 2 × 2
game `gameW`: the solver returns value 2 (an entry, between min 0 and max 3)
and mixed strategies `[49/100, 51/100]` and `[3/4, 1/4]`, nonnegative and
summing to 1. -/
theorem c10_solveGame_value_and_strategies_witness :
    solW.v ∈ gameW.flatten ∧
    (∀ mn, gameW.flatten.min? = some mn → mn ≤ solW.v) ∧
    (∀ mx, gameW.flatten.max? = some mx → solW.v ≤ mx) ∧
    (∀ p ∈ solW.y, 0 ≤ p) ∧ solW.y.sum = 1 ∧
    (∀ p ∈ solW.z, 0 ≤ p) ∧ solW.z.sum = 1 :=
  c10_solveGame_value_and_strategies gameW solW (by decide!)

/-! ## Sweep-loop lemmas (for claims C6 and C9) -/

/-- A resolved Python index is within the list. -/
theorem pyIdx_lt {len k : ℕ} {i : ℤ} (h : pyIdx len i = some k) : k < len := by
  unfold pyIdx at h
  split at h <;> split at h <;> simp_all <;> omega

/-- A nonnegative in-range index resolves to itself. -/
theorem pyIdx_of_nonneg {len : ℕ} {i : ℤ} (h0 : 0 ≤ i) (h1 : i < (len : ℤ)) :
    pyIdx len i = some i.toNat := by
  simp [pyIdx, h0, h1]

/-- A nonnegative index that resolves must be in range, to itself. -/
theorem pyIdx_nonneg_inv {len k : ℕ} {i : ℤ} (h0 : 0 ≤ i)
    (h : pyIdx len i = some k) : k = i.toNat ∧ i < (len : ℤ) := by
  unfold pyIdx at h
  rw [if_pos h0] at h
  split at h <;> simp_all

/-- Unpacking a successful Python 2-D write. -/
theorem pySet2_spec {α : Type} {g g2 : List (List α)} {i j : ℤ} {v : α}
    (h : pySet2 g i j v = some g2) :
    ∃ k row l, pyIdx g.length i = some k ∧ g.get? k = some row ∧
      pyIdx row.length j = some l ∧ g2 = g.set k (row.set l v) := by
  simp only [pySet2, Option.bind_eq_bind, Option.bind_eq_some, Option.map_eq_some'] at h
  obtain ⟨k, hk, row, hrow, l, hl, hg2⟩ := h
  exact ⟨k, row, l, hk, hrow, hl, hg2.symm⟩

/-- Reading back the cell a Python 2-D write just wrote. -/
theorem pySet2_get_same {α : Type} {g g2 : List (List α)} {i j : ℤ} {v : α}
    (h : pySet2 g i j v = some g2) : pyGet2 g2 i j = some v := by
  obtain ⟨k, row, l, hk, hrow, hl, rfl⟩ := pySet2_spec h
  have hkg : k < g.length := pyIdx_lt hk
  have hlr : l < row.length := pyIdx_lt hl
  simp only [pyGet2, pyGetL, List.length_set, hk, Option.bind_eq_bind, Option.some_bind]
  rw [List.get?_eq_getElem?, List.getElem?_set_self hkg]
  simp only [Option.some_bind, List.length_set, hl]
  rw [List.get?_eq_getElem?, List.getElem?_set_self hlr]

/-- A write at one cell does not change the value read at a different cell,
when all indices involved are nonnegative (as they are for every cell the
sweep loop touches). -/
theorem pySet2_get_other {α : Type} {g g2 : List (List α)} {i j i2 j2 : ℤ} {v : α}
    (h : pySet2 g i j v = some g2)
    (hi : 0 ≤ i) (hj : 0 ≤ j) (hi2 : 0 ≤ i2) (hj2 : 0 ≤ j2)
    (hne : (i, j) ≠ (i2, j2)) :
    pyGet2 g2 i2 j2 = pyGet2 g i2 j2 := by
  obtain ⟨k, row, l, hk, hrow, hl, rfl⟩ := pySet2_spec h
  obtain ⟨rfl, hilen⟩ := pyIdx_nonneg_inv hi hk
  obtain ⟨rfl, hjlen⟩ := pyIdx_nonneg_inv hj hl
  simp only [pyGet2, pyGetL, List.length_set]
  cases hk2 : pyIdx g.length i2 with
  | none => rfl
  | some k2 =>
    obtain ⟨rfl, hi2len⟩ := pyIdx_nonneg_inv hi2 hk2
    by_cases hkk : i.toNat = i2.toNat
    · have hii : i = i2 := by omega
      subst hii
      have hjj : j ≠ j2 := fun hj' => hne (by rw [hj'])
      simp only [Option.bind_eq_bind, Option.some_bind]
      rw [List.get?_eq_getElem?, List.getElem?_set_self (pyIdx_lt hk),
        List.get?_eq_getElem? g, ← List.get?_eq_getElem?, hrow]
      simp only [Option.some_bind, pyGetL, List.length_set]
      cases hl2 : pyIdx row.length j2 with
      | none => rfl
      | some l2 =>
        obtain ⟨rfl, hj2len⟩ := pyIdx_nonneg_inv hj2 hl2
        have hll : j.toNat ≠ j2.toNat := by omega
        simp only [Option.some_bind]
        rw [List.get?_eq_getElem?, List.getElem?_set_ne hll, List.get?_eq_getElem?]
    · simp only [Option.bind_eq_bind, Option.some_bind]
      rw [List.get?_eq_getElem?, List.getElem?_set_ne hkk, List.get?_eq_getElem?]

/-- Canonical reads of a uniform grid built by `List.replicate`. -/
theorem pyGet2_replicate {α : Type} {mR nC : ℕ} {x : α} {i j : ℤ}
    (h1 : 0 ≤ i) (h2 : i < (mR : ℤ)) (h3 : 0 ≤ j) (h4 : j < (nC : ℤ)) :
    pyGet2 (List.replicate mR (List.replicate nC x)) i j = some x := by
  have hi : i.toNat < mR := by omega
  have hj : j.toNat < nC := by omega
  simp only [pyGet2, pyGetL, List.length_replicate, pyIdx_of_nonneg h1 h2,
    pyIdx_of_nonneg h3 h4, Option.bind_eq_bind, Option.some_bind]
  rw [List.get?_eq_getElem?, List.getElem?_replicate, if_pos hi]
  simp only [Option.some_bind, List.length_replicate, pyIdx_of_nonneg h3 h4]
  rw [List.get?_eq_getElem?, List.getElem?_replicate, if_pos hj]

/-- Every transition `getNeighbors` returns from a cell of the grid lands in
the grid: coordinates are nonnegative and below `m`, `n`. -/
theorem getNeighbors_canonical {i : ℤ × ℤ} {m n : ℤ} {env : List (List ℤ)}
    {t : ℤ × ℤ × String}
    (hi1 : 0 ≤ i.1) (hi2 : i.1 < m) (hi3 : 0 ≤ i.2) (hi4 : i.2 < n)
    (ht : t ∈ getNeighbors i m n env 1) :
    0 ≤ t.1 ∧ t.1 < m ∧ 0 ≤ t.2.1 ∧ t.2.1 < n := by
  simp only [getNeighbors, List.mem_append, mem_seg, Bool.and_eq_true,
    decide_eq_true_eq] at ht
  rcases ht with
    (((((((((((((((⟨hg, rfl⟩ | ⟨hg, rfl⟩) | ⟨hg, rfl⟩) | ⟨hg, rfl⟩) | ⟨hg, rfl⟩) |
      ⟨hg, rfl⟩) | ⟨hg, rfl⟩) | ⟨hg, rfl⟩) | ⟨hg, rfl⟩) | ⟨hg, rfl⟩) | ⟨hg, rfl⟩) |
      ⟨hg, rfl⟩) | ⟨hg, rfl⟩) | ⟨hg, rfl⟩) | ⟨hg, rfl⟩) | ⟨hg, rfl⟩) <;>
    refine ⟨?_, ?_, ?_, ?_⟩ <;> simp_all <;> omega

/-- Membership in the queue after the enqueue loop: either it was already
queued, or it is a coordinate of one of the neighbors and passed the strict
bounds test. -/
theorem enqueueStep_mem {bounds : Bounds} {qh : List (ℤ × ℤ) × List (ℤ × ℤ)}
    {b : ℤ × ℤ × String} {x : ℤ × ℤ}
    (hx : x ∈ (enqueueStep bounds qh b).1) :
    x ∈ qh.1 ∨ (x = (b.1, b.2.1) ∧ inBoundsStrict bounds (b.1, b.2.1) = true) := by
  unfold enqueueStep at hx
  by_cases hs : inBoundsStrict bounds (b.1, b.2.1) = true
  · rw [if_pos hs] at hx
    by_cases hm : (b.1, b.2.1) ∈ qh.2
    · rw [if_pos hm] at hx
      exact Or.inl hx
    · rw [if_neg hm] at hx
      rcases List.mem_append.mp hx with h1 | h2
      · exact Or.inl h1
      · exact Or.inr ⟨List.mem_singleton.mp h2, hs⟩
  · rw [if_neg hs] at hx
    exact Or.inl hx

/-- `enqueueStep` never removes queue elements. -/
theorem enqueueStep_mono {bounds : Bounds} {qh : List (ℤ × ℤ) × List (ℤ × ℤ)}
    {b : ℤ × ℤ × String} {x : ℤ × ℤ} (hx : x ∈ qh.1) :
    x ∈ (enqueueStep bounds qh b).1 := by
  by_cases hs : inBoundsStrict bounds (b.1, b.2.1) = true
  · by_cases hm : (b.1, b.2.1) ∈ qh.2
    · simpa [enqueueStep, hs, hm] using hx
    · simp only [enqueueStep, if_pos hs, if_neg hm]
      exact List.mem_append.mpr (Or.inl hx)
  · simpa [enqueueStep, hs] using hx

/-- Queue membership after the whole enqueue loop. -/
theorem enqueueNeighbors_mem {bounds : Bounds} :
    ∀ (B : List (ℤ × ℤ × String)) (queue hist : List (ℤ × ℤ)) (x : ℤ × ℤ),
      x ∈ (enqueueNeighbors bounds B queue hist).1 →
      x ∈ queue ∨ ((∃ t ∈ B, x = (t.1, t.2.1)) ∧ inBoundsStrict bounds x = true) := by
  intro B
  induction B with
  | nil =>
    intro q h x hx
    exact Or.inl (by simpa [enqueueNeighbors] using hx)
  | cons t ts ih =>
    intro q h x hx
    rw [enqueueNeighbors, List.foldl_cons] at hx
    have hx2 : x ∈ (enqueueNeighbors bounds ts (enqueueStep bounds (q, h) t).1
        (enqueueStep bounds (q, h) t).2).1 := by
      rw [enqueueNeighbors]
      exact hx
    rcases ih _ _ x hx2 with hq | hrest
    · rcases enqueueStep_mem hq with h1 | ⟨hx1, hs⟩
      · exact Or.inl h1
      · exact Or.inr ⟨⟨t, by simp, hx1⟩, by rw [hx1]; exact hs⟩
    · exact Or.inr ⟨⟨hrest.1.choose, List.mem_cons_of_mem t hrest.1.choose_spec.1,
        hrest.1.choose_spec.2⟩, hrest.2⟩

/-- `enqueueNeighbors` never removes queue elements. -/
theorem enqueueNeighbors_mono {bounds : Bounds} :
    ∀ (B : List (ℤ × ℤ × String)) (queue hist : List (ℤ × ℤ)) (x : ℤ × ℤ),
      x ∈ queue → x ∈ (enqueueNeighbors bounds B queue hist).1 := by
  intro B
  induction B with
  | nil =>
    intro q h x hx
    simpa [enqueueNeighbors] using hx
  | cons t ts ih =>
    intro q h x hx
    rw [enqueueNeighbors, List.foldl_cons]
    have := ih (enqueueStep bounds (q, h) t).1 (enqueueStep bounds (q, h) t).2 x
      (enqueueStep_mono hx)
    rw [enqueueNeighbors] at this
    exact this

/-- Unfolding equation: a sweep with an empty queue returns the grids. -/
theorem sweepLoop_nil (ctx : SweepCtx) (fuel : ℕ) (c2gS : List (List ℚ))
    (a2gS : List (List String)) (hist : List (ℤ × ℤ)) :
    sweepLoop ctx fuel ⟨c2gS, a2gS, [], hist⟩ = some (c2gS, a2gS) := by
  cases fuel <;> rfl

/-- Unfolding equation: one iteration of the sweep body. -/
theorem sweepLoop_succ_cons (ctx : SweepCtx) (fuel : ℕ) (c2gS : List (List ℚ))
    (a2gS : List (List String)) (i : ℤ × ℤ) (rest hist : List (ℤ × ℤ)) :
    sweepLoop ctx (fuel + 1) ⟨c2gS, a2gS, i :: rest, hist⟩ =
      (getNewCost ctx.ops i ctx.G ctx.occgrid ctx.mB ctx.nB c2gS ctx.Dmax
        ctx.traveler ctx.ugrids ctx.vgrids ctx.egrids ctx.wgrids ctx.leakRow
        ctx.leakCol).bind fun ca =>
      (pySet2 c2gS i.1 i.2 ca.1).bind fun c2g =>
      (pySet2 a2gS i.1 i.2 ca.2).bind fun a2g =>
      sweepLoop ctx fuel ⟨c2g, a2g,
        (enqueueNeighbors ctx.bounds (getNeighbors i (ctx.occgrid.length : ℤ)
          (shape1 ctx.occgrid : ℤ) ctx.occgrid 1) rest hist).1,
        (enqueueNeighbors ctx.bounds (getNeighbors i (ctx.occgrid.length : ℤ)
          (shape1 ctx.occgrid : ℤ) ctx.occgrid 1) rest hist).2⟩ := rfl

/-- Any completed sweep leaves the target cell's entries at `(0, "*")`,
provided the target is a grid cell, every queued cell is a grid cell, and the
target's entries either already hold `(0, "*")` or the target is still
queued.  Every pop of the target writes `(0, "*")` (the first branch of
`getNewCost`), and a write at any other queued cell cannot alias the
target's entries. -/
theorem sweepLoop_target (ctx : SweepCtx) :
    ∀ (fuel : ℕ) (c2gS : List (List ℚ)) (a2gS : List (List String))
      (vq vh : List (ℤ × ℤ)) (out : List (List ℚ) × List (List String)),
      (∀ b ∈ vq, 0 ≤ b.1 ∧ b.1 < (ctx.occgrid.length : ℤ) ∧
        0 ≤ b.2 ∧ b.2 < (shape1 ctx.occgrid : ℤ)) →
      0 ≤ ctx.G.1 → ctx.G.1 < (ctx.occgrid.length : ℤ) →
      0 ≤ ctx.G.2 → ctx.G.2 < (shape1 ctx.occgrid : ℤ) →
      ((pyGet2 c2gS ctx.G.1 ctx.G.2 = some 0 ∧
        pyGet2 a2gS ctx.G.1 ctx.G.2 = some "*") ∨ ctx.G ∈ vq) →
      sweepLoop ctx fuel ⟨c2gS, a2gS, vq, vh⟩ = some out →
      pyGet2 out.1 ctx.G.1 ctx.G.2 = some 0 ∧
      pyGet2 out.2 ctx.G.1 ctx.G.2 = some "*" := by
  intro fuel
  induction fuel with
  | zero =>
    intro c2gS a2gS vq vh out hq hG1 hG2 hG3 hG4 hP hrun
    cases vq with
    | nil =>
      rw [sweepLoop_nil] at hrun
      cases hrun
      rcases hP with ⟨h1, h2⟩ | hG
      · exact ⟨h1, h2⟩
      · cases hG
    | cons i rest => exact Option.noConfusion hrun
  | succ fuel ih =>
    intro c2gS a2gS vq vh out hq hG1 hG2 hG3 hG4 hP hrun
    cases vq with
    | nil =>
      rw [sweepLoop_nil] at hrun
      cases hrun
      rcases hP with ⟨h1, h2⟩ | hG
      · exact ⟨h1, h2⟩
      · cases hG
    | cons i rest =>
      rw [sweepLoop_succ_cons] at hrun
      obtain ⟨ca, hca, hrun⟩ := Option.bind_eq_some.mp hrun
      obtain ⟨c2g, hc2g, hrun⟩ := Option.bind_eq_some.mp hrun
      obtain ⟨a2g, ha2g, hrec⟩ := Option.bind_eq_some.mp hrun
      have hqi := hq i (List.mem_cons_self i rest)
      have hqrest : ∀ b ∈ rest, 0 ≤ b.1 ∧ b.1 < (ctx.occgrid.length : ℤ) ∧
          0 ≤ b.2 ∧ b.2 < (shape1 ctx.occgrid : ℤ) :=
        fun b hb => hq b (List.mem_cons_of_mem i hb)
      have hnew : ∀ b ∈ (enqueueNeighbors ctx.bounds
          (getNeighbors i (ctx.occgrid.length : ℤ) (shape1 ctx.occgrid : ℤ)
            ctx.occgrid 1) rest vh).1,
          0 ≤ b.1 ∧ b.1 < (ctx.occgrid.length : ℤ) ∧
          0 ≤ b.2 ∧ b.2 < (shape1 ctx.occgrid : ℤ) := by
        intro b hb
        rcases enqueueNeighbors_mem _ _ _ _ hb with hbr | ⟨⟨t, htB, rfl⟩, -⟩
        · exact hqrest b hbr
        · exact getNeighbors_canonical hqi.1 hqi.2.1 hqi.2.2.1 hqi.2.2.2 htB
      by_cases hiG : i = ctx.G
      · subst hiG
        rw [getNewCost, if_pos rfl] at hca
        cases hca
        exact ih _ _ _ _ out hnew hG1 hG2 hG3 hG4
          (Or.inl ⟨pySet2_get_same hc2g, pySet2_get_same ha2g⟩) hrec
      · refine ih _ _ _ _ out hnew hG1 hG2 hG3 hG4 ?_ hrec
        have hne : (i.1, i.2) ≠ (ctx.G.1, ctx.G.2) := by simpa using hiG
        rcases hP with ⟨h1, h2⟩ | hGq
        · exact Or.inl ⟨by
            rw [pySet2_get_other hc2g hqi.1 hqi.2.2.1 hG1 hG3 hne]; exact h1, by
            rw [pySet2_get_other ha2g hqi.1 hqi.2.2.1 hG1 hG3 hne]; exact h2⟩
        · right
          have hGrest : ctx.G ∈ rest := by
            rcases List.mem_cons.mp hGq with h | h
            · exact absurd h.symm hiG
            · exact h
          exact enqueueNeighbors_mono _ _ _ _ hGrest

/-- Split the last step off a successful monadic fold. -/
theorem foldlM_last_step {α β : Type} (f : β → α → Option β) :
    ∀ (l : List α) (a : α) (s fin : β), (l ++ [a]).foldlM f s = some fin →
      ∃ mid, l.foldlM f s = some mid ∧ f mid a = some fin := by
  intro l a s fin h
  rw [List.foldlM_append] at h
  obtain ⟨mid, h1, h2⟩ := Option.bind_eq_some.mp h
  refine ⟨mid, h1, ?_⟩
  simpa using h2

/-- C6: confirmed.  After any positive number of completed sweeps of
`getCost2go` — default or explicit iteration budget — the target cell's
cost-to-go entry is exactly 0 and its action entry is the target symbol "*",
provided the target is a cell of the grid.  The target is re-popped and
re-classified in every sweep (and possibly re-enqueued within a sweep), but
every pop of the target writes `(0, "*")` and no other write aliases it. -/
theorem c6_target_fixed_point (ops : MathOps) (traveler : Traveler)
    (occgrid : List (List ℤ)) (ugrids vgrids egrids wgrids : List (List (List ℚ)))
    (bounds : Bounds) (iterations : Option ℕ) (method : ℕ) (out : Cost2goResult)
    (hG1 : 0 ≤ traveler.target.1) (hG2 : traveler.target.1 < (occgrid.length : ℤ))
    (hG3 : 0 ≤ traveler.target.2) (hG4 : traveler.target.2 < (shape1 occgrid : ℤ))
    (hiter : 1 ≤ effIterations bounds iterations)
    (hrun : getCost2go ops traveler occgrid ugrids vgrids egrids wgrids bounds
      iterations method = some out) :
    pyGet2 out.cost2go traveler.target.1 traveler.target.2 = some 0 ∧
    pyGet2 out.action2go traveler.target.1 traveler.target.2 = some "*" := by
  simp only [getCost2go, Option.bind_eq_bind, Option.bind_eq_some, Option.pure_def,
    Option.some.injEq] at hrun
  obtain ⟨final, hfold, hout⟩ := hrun
  obtain ⟨k, hk⟩ : ∃ k, effIterations bounds iterations = k + 1 :=
    ⟨effIterations bounds iterations - 1, by omega⟩
  rw [hk, List.range_succ] at hfold
  obtain ⟨mid, -, hlast⟩ := foldlM_last_step _ _ _ _ _ hfold
  have htgt := sweepLoop_target _ _ _ _ _ _ _
    (by
      intro b hb
      rcases List.mem_singleton.mp hb with rfl
      exact ⟨hG1, hG2, hG3, hG4⟩)
    hG1 hG2 hG3 hG4 (Or.inr (List.mem_singleton.mpr rfl)) hlast
  subst hout
  exact htgt

/-- Witness for `c6_target_fixed_point`: in the concrete run `runC` the
target (0,1) is inside the 3 × 3 grid, one sweep is requested, and the
returned grids hold cost 0 and action "*" at the target. -/
theorem c6_target_fixed_point_witness :
    pyGet2 runOut.cost2go 0 1 = some 0 ∧ pyGet2 runOut.action2go 0 1 = some "*" :=
  c6_target_fixed_point opsX trav4 occ3 [uFour] [zero3] [zero3] [wLeak] bounds3
    (some 1) 0 runOut (by decide) (by decide) (by decide) (by decide) (by decide)
    runC_eq

/-! ## Claim C9 -/

/-- A cell that fails the strict bounds test and is not currently queued is
never popped by a sweep, so its cost and action entries after a completed
sweep equal its entries before: cells can only enter the queue through the
strict test, and writes happen only at popped cells, which cannot alias the
frozen cell. -/
theorem sweepLoop_frozen (ctx : SweepCtx) :
    ∀ (fuel : ℕ) (c2gS : List (List ℚ)) (a2gS : List (List String))
      (vq vh : List (ℤ × ℤ)) (out : List (List ℚ) × List (List String))
      (cell : ℤ × ℤ),
      (∀ b ∈ vq, 0 ≤ b.1 ∧ b.1 < (ctx.occgrid.length : ℤ) ∧
        0 ≤ b.2 ∧ b.2 < (shape1 ctx.occgrid : ℤ)) →
      0 ≤ cell.1 → 0 ≤ cell.2 →
      cell ∉ vq →
      inBoundsStrict ctx.bounds cell = false →
      sweepLoop ctx fuel ⟨c2gS, a2gS, vq, vh⟩ = some out →
      pyGet2 out.1 cell.1 cell.2 = pyGet2 c2gS cell.1 cell.2 ∧
      pyGet2 out.2 cell.1 cell.2 = pyGet2 a2gS cell.1 cell.2 := by
  intro fuel
  induction fuel with
  | zero =>
    intro c2gS a2gS vq vh out cell hq hc1 hc2 hnq hstrict hrun
    cases vq with
    | nil =>
      rw [sweepLoop_nil] at hrun
      cases hrun
      exact ⟨rfl, rfl⟩
    | cons i rest => exact Option.noConfusion hrun
  | succ fuel ih =>
    intro c2gS a2gS vq vh out cell hq hc1 hc2 hnq hstrict hrun
    cases vq with
    | nil =>
      rw [sweepLoop_nil] at hrun
      cases hrun
      exact ⟨rfl, rfl⟩
    | cons i rest =>
      rw [sweepLoop_succ_cons] at hrun
      obtain ⟨ca, hca, hrun⟩ := Option.bind_eq_some.mp hrun
      obtain ⟨c2g, hc2g, hrun⟩ := Option.bind_eq_some.mp hrun
      obtain ⟨a2g, ha2g, hrec⟩ := Option.bind_eq_some.mp hrun
      have hqi := hq i (List.mem_cons_self i rest)
      have hqrest : ∀ b ∈ rest, 0 ≤ b.1 ∧ b.1 < (ctx.occgrid.length : ℤ) ∧
          0 ≤ b.2 ∧ b.2 < (shape1 ctx.occgrid : ℤ) :=
        fun b hb => hq b (List.mem_cons_of_mem i hb)
      have hnew : ∀ b ∈ (enqueueNeighbors ctx.bounds
          (getNeighbors i (ctx.occgrid.length : ℤ) (shape1 ctx.occgrid : ℤ)
            ctx.occgrid 1) rest vh).1,
          0 ≤ b.1 ∧ b.1 < (ctx.occgrid.length : ℤ) ∧
          0 ≤ b.2 ∧ b.2 < (shape1 ctx.occgrid : ℤ) := by
        intro b hb
        rcases enqueueNeighbors_mem _ _ _ _ hb with hbr | ⟨⟨t, htB, rfl⟩, -⟩
        · exact hqrest b hbr
        · exact getNeighbors_canonical hqi.1 hqi.2.1 hqi.2.2.1 hqi.2.2.2 htB
      have hni : i ≠ cell := fun hic => hnq (hic ▸ List.mem_cons_self i rest)
      have hne : (i.1, i.2) ≠ (cell.1, cell.2) := by simpa using hni
      have hnq2 : cell ∉ (enqueueNeighbors ctx.bounds
          (getNeighbors i (ctx.occgrid.length : ℤ) (shape1 ctx.occgrid : ℤ)
            ctx.occgrid 1) rest vh).1 := by
        intro hcellq
        rcases enqueueNeighbors_mem _ _ _ _ hcellq with hbr | ⟨-, hs⟩
        · exact hnq (List.mem_cons_of_mem i hbr)
        · rw [hstrict] at hs
          exact Bool.noConfusion hs
      have hrest := ih _ _ _ _ out cell hnew hc1 hc2 hnq2 hstrict hrec
      refine ⟨?_, ?_⟩
      · rw [hrest.1, pySet2_get_other hc2g hqi.1 hqi.2.2.1 hc1 hc2 hne]
      · rw [hrest.2, pySet2_get_other ha2g hqi.1 hqi.2.2.1 hc1 hc2 hne]

/-- Across all sweeps of a run, a cell outside the strict bounds rectangle
(and distinct from the seeded target) keeps its grid entries. -/
theorem sweeps_frozen (ctx : SweepCtx) (fuelN : ℕ) (cell : ℤ × ℤ)
    (hc1 : 0 ≤ cell.1) (hc2 : 0 ≤ cell.2)
    (hG1 : 0 ≤ ctx.G.1) (hG2 : ctx.G.1 < (ctx.occgrid.length : ℤ))
    (hG3 : 0 ≤ ctx.G.2) (hG4 : ctx.G.2 < (shape1 ctx.occgrid : ℤ))
    (hne : cell ≠ ctx.G)
    (hstrict : inBoundsStrict ctx.bounds cell = false) :
    ∀ (l : List ℕ) (grids fin : List (List ℚ) × List (List String)),
      l.foldlM (fun g _ => sweepLoop ctx fuelN ⟨g.1, g.2, [ctx.G], []⟩) grids =
        some fin →
      pyGet2 fin.1 cell.1 cell.2 = pyGet2 grids.1 cell.1 cell.2 ∧
      pyGet2 fin.2 cell.1 cell.2 = pyGet2 grids.2 cell.1 cell.2 := by
  intro l
  induction l with
  | nil =>
    intro grids fin h
    simp only [List.foldlM_nil, Option.pure_def, Option.some.injEq] at h
    subst h
    exact ⟨rfl, rfl⟩
  | cons a t ih =>
    intro grids fin h
    rw [List.foldlM_cons] at h
    obtain ⟨mid, h1, h2⟩ := Option.bind_eq_some.mp h
    have hs := sweepLoop_frozen ctx fuelN grids.1 grids.2 [ctx.G] [] mid cell
      (by
        intro b hb
        rcases List.mem_singleton.mp hb with rfl
        exact ⟨hG1, hG2, hG3, hG4⟩)
      hc1 hc2 (by simpa using hne) hstrict h1
    have hi := ih mid fin h2
    exact ⟨hi.1.trans hs.1, hi.2.trans hs.2⟩

/-- C9: amended.  The enqueue test of `getCost2go` is strictly-inside on ALL
four edges (`upperleft < b` and `b < lowerright` componentwise,
`inBoundsStrict`), not half-open: a grid cell on the upper-left row or
column, like any other cell outside the strict rectangle (other than the
seeded target), is never enqueued and stays frozen at its initialized values
`D_max` and "-" for the whole run. -/
theorem c9_frozen_outside_strict_bounds (ops : MathOps) (traveler : Traveler)
    (occgrid : List (List ℤ)) (ugrids vgrids egrids wgrids : List (List (List ℚ)))
    (bounds : Bounds) (iterations : Option ℕ) (method : ℕ) (out : Cost2goResult)
    (cell : ℤ × ℤ)
    (hc1 : 0 ≤ cell.1) (hc2 : cell.1 < (occgrid.length : ℤ))
    (hc3 : 0 ≤ cell.2) (hc4 : cell.2 < (shape1 occgrid : ℤ))
    (hG1 : 0 ≤ traveler.target.1) (hG2 : traveler.target.1 < (occgrid.length : ℤ))
    (hG3 : 0 ≤ traveler.target.2) (hG4 : traveler.target.2 < (shape1 occgrid : ℤ))
    (hne : cell ≠ (traveler.target.1, traveler.target.2))
    (hstrict : inBoundsStrict bounds cell = false)
    (hrun : getCost2go ops traveler occgrid ugrids vgrids egrids wgrids bounds
      iterations method = some out) :
    pyGet2 out.cost2go cell.1 cell.2 = some (DmaxVal ops bounds) ∧
    pyGet2 out.action2go cell.1 cell.2 = some "-" := by
  simp only [getCost2go, Option.bind_eq_bind, Option.bind_eq_some, Option.pure_def,
    Option.some.injEq] at hrun
  obtain ⟨final, hfold, hout⟩ := hrun
  have hfr := sweeps_frozen _ _ cell hc1 hc3 hG1 hG2 hG3 hG4 hne hstrict
    _ _ final hfold
  subst hout
  refine ⟨?_, ?_⟩
  · rw [hfr.1]
    exact pyGet2_replicate hc1 hc2 hc3 hc4
  · rw [hfr.2]
    exact pyGet2_replicate hc1 hc2 hc3 hc4

/-- Witness for `c9_frozen_outside_strict_bounds`: in the concrete run `runC`
the free cell (2,2) lies outside the strict rectangle of `bounds3` (its
coordinates equal the lower-right corner), is not the target, and ends the
run frozen at the initialized `D_max` cost and "-" action. -/
theorem c9_frozen_outside_strict_bounds_witness :
    pyGet2 runOut.cost2go 2 2 = some (DmaxVal opsX bounds3) ∧
    pyGet2 runOut.action2go 2 2 = some "-" :=
  c9_frozen_outside_strict_bounds opsX trav4 occ3 [uFour] [zero3] [zero3] [wLeak]
    bounds3 (some 1) 0 runOut (2, 2) (by decide) (by decide) (by decide) (by decide)
    (by decide) (by decide) (by decide) (by decide) (by decide) (by decide) runC_eq

/-- C9: counterexample.  The enqueue test of the sweep (source lines 575–576,
`inBoundsStrict`) is NOT the half-open rectangle the claim describes: the
cell (0,0) of the concrete run lies on the upper-left corner of the bounds
`(0,0)–(2,2)`, so it is inside the claimed half-open rectangle, yet it fails
the code's strict test; accordingly, although it is a free in-grid neighbor
of the popped target (0,1) with a finite-cost neighbor, the run leaves it
frozen at the initialized `D_max` cost and "-" action instead of enqueueing
and updating it. -/
theorem c9_upper_left_edge_excluded_counterexample :
    inBoundsStrict bounds3 (0, 0) = false ∧
    specHalfOpenBounds bounds3 (0, 0) = true ∧
    (runC.map fun out => pyGet2 out.cost2go 0 0) = some (some DmaxC) ∧
    (runC.map fun out => pyGet2 out.action2go 0 0) = some (some "-") := by
  refine ⟨by decide, by decide, ?_, ?_⟩ <;> (rw [runC_eq]; decide!)

end Fujin
